import Mathlib

/-!
A shallow embedding of the TypeScript service client
(`extensions/typescript-language-features/src/typescriptServiceClient.ts`):
the correlation table (`CallbackMap`), the pending request queue
(`RequestQueue`), and the orchestrating client methods (`executeImpl`,
`sendNextRequests`, `sendRequest`, `tryCancelRequest`, `dispatchMessage`,
`serviceExited`).  Promise resolutions, rejections, writes to the worker
process and user-visible prompts are modelled as an explicit list of
emitted effects; the client is single-threaded (an event loop), so each
entry point is a pure state transformer.
-/

namespace TSClient

/-! ### JavaScript `Map` with `Nat` keys, as an insertion-ordered association list.
`jset` replaces in place when the key is present and appends otherwise;
`jdel` removes the (unique) binding and reports whether one was found;
`jvalues` lists values in insertion order, as `Map.prototype.values()` does. -/

abbrev JMap (β : Type) : Type := List (Nat × β)

namespace JMap

def empty {β : Type} : JMap β := ([] : List (Nat × β))

def get {β : Type} : JMap β → Nat → Option β
  | [], _ => none
  | (k', v) :: rest, k => if k' = k then some v else get rest k

def set {β : Type} : JMap β → Nat → β → JMap β
  | [], k, v => [(k, v)]
  | (k', v') :: rest, k, v =>
      if k' = k then (k, v) :: rest else (k', v') :: set rest k v

def del {β : Type} : JMap β → Nat → JMap β × Bool
  | [], _ => ([], false)
  | (k', v') :: rest, k =>
      if k' = k then (rest, true)
      else
        let r := del rest k
        ((k', v') :: r.1, r.2)

def keys {β : Type} (m : JMap β) : List Nat := m.map Prod.fst

def values {β : Type} (m : JMap β) : List β := m.map Prod.snd

def size {β : Type} (m : JMap β) : Nat := m.length

@[simp] theorem keys_nil {β : Type} : keys ([] : JMap β) = [] := rfl

@[simp] theorem keys_cons {β : Type} (p : Nat × β) (rest : JMap β) :
    keys (p :: rest) = p.1 :: keys rest := rfl

theorem get_eq_none_of_not_mem {β : Type} (m : JMap β) (k : Nat)
    (h : k ∉ keys m) : get m k = none := by
  induction m with
  | nil => rfl
  | cons p rest ih =>
    rw [keys_cons, List.mem_cons] at h
    push_neg at h
    simp only [get]
    rw [if_neg (Ne.symm h.1)]
    exact ih h.2

theorem mem_of_get_eq_some {β : Type} (m : JMap β) (k : Nat) (v : β)
    (h : get m k = some v) : k ∈ keys m := by
  induction m with
  | nil => simp [get] at h
  | cons p rest ih =>
    simp only [get] at h
    by_cases hk : p.1 = k
    · simp [hk]
    · rw [if_neg hk] at h
      exact List.mem_cons.mpr (Or.inr (ih h))

theorem set_of_not_mem {β : Type} (m : JMap β) (k : Nat) (v : β)
    (h : k ∉ keys m) : set m k v = m ++ [(k, v)] := by
  induction m with
  | nil => rfl
  | cons p rest ih =>
    rw [keys_cons, List.mem_cons] at h
    push_neg at h
    simp only [set]
    rw [if_neg (Ne.symm h.1), ih h.2]
    rfl

theorem del_of_not_mem {β : Type} (m : JMap β) (k : Nat)
    (h : k ∉ keys m) : del m k = (m, false) := by
  induction m with
  | nil => rfl
  | cons p rest ih =>
    rw [keys_cons, List.mem_cons] at h
    push_neg at h
    simp only [del]
    rw [if_neg (Ne.symm h.1), ih h.2]

theorem del_found_iff {β : Type} (m : JMap β) (k : Nat) :
    (del m k).2 = true ↔ k ∈ keys m := by
  induction m with
  | nil => simp [del]
  | cons p rest ih =>
    by_cases hk : p.1 = k
    · simp [del, hk]
    · simp only [del, if_neg hk, keys_cons, List.mem_cons]
      rw [ih]
      constructor
      · exact fun h => Or.inr h
      · rintro (h | h)
        · exact absurd h.symm hk
        · exact h

theorem del_keys_of_nodup {β : Type} (m : JMap β) (k : Nat)
    (hnd : (keys m).Nodup) (hmem : k ∈ keys m) :
    keys (del m k).1 = (keys m).erase k := by
  induction m with
  | nil => simp at hmem
  | cons p rest ih =>
    rw [keys_cons] at hnd hmem
    rcases List.nodup_cons.mp hnd with ⟨_, hrest⟩
    by_cases hk : p.1 = k
    · subst hk
      simp [del, List.erase_cons_head]
    · have hmem' : k ∈ keys rest := by
        rcases List.mem_cons.mp hmem with h | h
        · exact absurd h.symm hk
        · exact h
      simp only [del, if_neg hk, keys_cons]
      rw [ih hrest hmem', List.erase_cons_tail]
      simp [hk]

theorem get_del_same_of_nodup {β : Type} (m : JMap β) (k : Nat)
    (hnd : (keys m).Nodup) : get (del m k).1 k = none := by
  by_cases hmem : k ∈ keys m
  · apply get_eq_none_of_not_mem
    rw [del_keys_of_nodup m k hnd hmem]
    exact hnd.not_mem_erase
  · rw [del_of_not_mem m k hmem]
    exact get_eq_none_of_not_mem m k hmem

theorem get_set_same {β : Type} (m : JMap β) (k : Nat) (v : β) :
    get (set m k v) k = some v := by
  induction m with
  | nil => simp [set, get]
  | cons p rest ih =>
    by_cases hk : p.1 = k
    · simp [set, hk, get]
    · simp [set, hk, get, ih]

theorem del_length_of_found {β : Type} (m : JMap β) (k : Nat)
    (h : (del m k).2 = true) : ((del m k).1).length + 1 = m.length := by
  induction m with
  | nil => simp [del] at h
  | cons p rest ih =>
    by_cases hk : p.1 = k
    · simp [del, hk]
    · simp only [del, if_neg hk] at h ⊢
      simp only [List.length_cons]
      have := ih h
      omega

theorem get_isSome_of_mem {β : Type} (m : JMap β) (k : Nat)
    (h : k ∈ keys m) : (get m k).isSome := by
  induction m with
  | nil => simp at h
  | cons p rest ih =>
    by_cases hk : p.1 = k
    · simp [get, hk]
    · rw [keys_cons, List.mem_cons] at h
      rcases h with h | h
      · exact absurd h.symm hk
      · simp only [get, if_neg hk]
        exact ih h

theorem get_eq_none_iff {β : Type} (m : JMap β) (k : Nat) :
    get m k = none ↔ k ∉ keys m := by
  constructor
  · intro h hmem
    have := get_isSome_of_mem m k hmem
    rw [h] at this
    simp at this
  · exact get_eq_none_of_not_mem m k

theorem del_append_single {β : Type} (m : JMap β) (k : Nat) (v : β)
    (h : k ∉ keys m) : del (m ++ [(k, v)]) k = (m, true) := by
  induction m with
  | nil => simp [del]
  | cons p rest ih =>
    rw [keys_cons, List.mem_cons] at h
    push_neg at h
    obtain ⟨k', v'⟩ := p
    simp only [List.cons_append, del, List.append_eq]
    rw [if_neg (Ne.symm h.1), ih h.2]

theorem del_unfound_eq {β : Type} (m : JMap β) (k : Nat)
    (h : (del m k).2 = false) : (del m k).1 = m := by
  induction m with
  | nil => rfl
  | cons p rest ih =>
    by_cases hk : p.1 = k
    · simp [del, hk] at h
    · simp only [del, if_neg hk] at h ⊢
      rw [ih h]

end JMap

/-! ### Protocol data model (`Proto.Request` / `Proto.Response` / events),
with opaque payloads modelled as `Nat`. -/

/-- An outgoing request: `{seq, type: "request", command, arguments}`.
The `type` tag is constant and therefore omitted; `arguments` is opaque. -/
structure Request where
  seq : Nat
  command : String
  arguments : Nat
  deriving DecidableEq, Repr

/-- An incoming response: `{request_seq, success, body-or-error}`.  The
body/error payload is opaque to the client; `payload` stands for it. -/
structure Response where
  request_seq : Nat
  success : Bool
  payload : Nat
  deriving DecidableEq, Repr

/-- Errors the client itself constructs and hands to failure continuations. -/
inductive ErrVal where
  /-- `new Error("Service died.")`, used by `serviceExited` via `destroy`. -/
  | serviceDied : ErrVal
  /-- The error of `new Error("Cancelled Request <seq>")` in `tryCancelRequest`. -/
  | cancelled : Nat → ErrVal
  /-- `new Error("Unknown message type <t> received")` thrown by `dispatchMessage`. -/
  | unknownMessageType : String → ErrVal
  /-- An error produced outside the client, e.g. the rejection of `service()`. -/
  | external : Nat → ErrVal
  deriving DecidableEq, Repr

/-- A value handed to a callback continuation.  The code settles promises
with the full response object (`p.c(response)` / `p.e(response)`), with
`undefined` (`p.c(undefined)` on `requestCompleted`), or with an `Error`;
`respBody` exists only to state what resolving with just the body would be. -/
inductive Value where
  | respMsg : Response → Value
  | respBody : Nat → Value
  | undef : Value
  | err : ErrVal → Value
  deriving DecidableEq, Repr

/-- Observable actions of the client: settling a request's promise,
writing to the worker's stdin, touching the cancellation pipe, spawning a
new worker, logging an error, and showing the two restart-policy prompts.
Tracer output carries no state and is not modelled. -/
inductive Effect where
  /-- The success continuation of the promise of request `seq` is invoked. -/
  | resolve : Nat → Value → Effect
  /-- The failure continuation of the promise of request `seq` is invoked. -/
  | reject : Nat → Value → Effect
  /-- `childProcess.write(serverRequest)`. -/
  | write : Request → Effect
  /-- `fs.writeFileSync(cancellationPipeName + seq, "")`. -/
  | cancelMarker : Nat → Effect
  /-- A new worker process is forked (`startService`). -/
  | spawn : Effect
  /-- `this.error(...)`: the error is logged. -/
  | logError : ErrVal → Effect
  /-- The fatal `showErrorMessage` prompt of the restart policy. -/
  | promptFatal : Effect
  /-- The `showWarningMessage` prompt of the restart policy. -/
  | promptWarn : Effect
  deriving DecidableEq, Repr

/-- One registered continuation pair.  In the source a `CallbackItem` holds
the closures `c`/`e` that settle the promise of the request it was created
for, plus the start timestamp; here the closures are represented by the
sequence number of that request, so that invoking `c`/`e` becomes the
effect `resolve reqSeq v` / `reject reqSeq v`. -/
structure CallbackItem where
  reqSeq : Nat
  start : Nat
  deriving DecidableEq, Repr

/-! ### `CallbackMap` (the correlation table) -/

structure CallbackMap where
  callbacks : JMap CallbackItem := JMap.empty
  asyncCallbacks : JMap CallbackItem := JMap.empty
  pendingResponses : Int := 0
  deriving DecidableEq, Repr

namespace CallbackMap

/-- `destroy(e)`: call `callback.e(e)` for every value of `callbacks`, then
for every value of `asyncCallbacks`, then `this.callbacks.clear()` and
`this.pendingResponses = 0`.  Note that the source does *not* clear
`asyncCallbacks`. -/
def destroy (m : CallbackMap) (e : ErrVal) : CallbackMap × List Effect :=
  ({ m with callbacks := JMap.empty, pendingResponses := 0 },
    (m.callbacks.values.map fun cb => Effect.reject cb.reqSeq (Value.err e))
      ++ (m.asyncCallbacks.values.map fun cb => Effect.reject cb.reqSeq (Value.err e)))

/-- `add(seq, callback, isAsync)`. -/
def add (m : CallbackMap) (seq : Nat) (callback : CallbackItem) (isAsync : Bool) :
    CallbackMap :=
  if isAsync then
    { m with asyncCallbacks := m.asyncCallbacks.set seq callback }
  else
    { m with callbacks := m.callbacks.set seq callback,
             pendingResponses := m.pendingResponses + 1 }

/-- The private `delete(seq)`: try `callbacks.delete` first (decrementing
the counter on success), otherwise `asyncCallbacks.delete`. -/
def deleteSeq (m : CallbackMap) (seq : Nat) : CallbackMap :=
  let d := m.callbacks.del seq
  if d.2 then
    { m with callbacks := d.1, pendingResponses := m.pendingResponses - 1 }
  else
    { m with asyncCallbacks := (m.asyncCallbacks.del seq).1 }

/-- `fetch(seq)`: look the callback up in `callbacks` falling back to
`asyncCallbacks`, delete it, and return it. -/
def fetch (m : CallbackMap) (seq : Nat) : Option CallbackItem × CallbackMap :=
  let callback := (m.callbacks.get seq).or (m.asyncCallbacks.get seq)
  (callback, m.deleteSeq seq)

/-- Number of outstanding synchronous registrations (entries of the
non-async map): the quantity `pendingResponses` is meant to track. -/
def syncCount (m : CallbackMap) : Nat := m.callbacks.length

end CallbackMap

/-! ### `RequestQueue` -/

structure RequestItem where
  request : Request
  callbacks : Option CallbackItem
  «isAsync» : Bool
  deriving DecidableEq, Repr

structure RequestQueue where
  queue : List RequestItem := []
  sequenceNumber : Nat := 0
  deriving DecidableEq, Repr

namespace RequestQueue

def length (q : RequestQueue) : Nat := q.queue.length

def push (q : RequestQueue) (item : RequestItem) : RequestQueue :=
  { q with queue := q.queue ++ [item] }

def shift (q : RequestQueue) : Option RequestItem × RequestQueue :=
  match q.queue with
  | [] => (none, q)
  | item :: rest => (some item, { q with queue := rest })

/-- The `for`/`splice` scan of `tryCancelPendingRequest`: remove the first
entry whose `request.seq` matches, if any. -/
def removeFirstSeq (seq : Nat) : List RequestItem → Option (List RequestItem)
  | [] => none
  | item :: rest =>
      if item.request.seq = seq then some rest
      else (removeFirstSeq seq rest).map (item :: ·)

/-- `tryCancelPendingRequest(seq)`: O(n) scan removing the not-yet-sent
entry with that seq, reporting whether one was found. -/
def tryCancelPendingRequest (q : RequestQueue) (seq : Nat) : Bool × RequestQueue :=
  match removeFirstSeq seq q.queue with
  | some rest => (true, { q with queue := rest })
  | none => (false, q)

/-- `createRequest(command, args)`: allocate `sequenceNumber++` and build
the request. -/
def createRequest (q : RequestQueue) (command : String) (args : Nat) :
    Request × RequestQueue :=
  ({ seq := q.sequenceNumber, command := command, arguments := args },
    { q with sequenceNumber := q.sequenceNumber + 1 })

end RequestQueue

/-! ### The client (`TypeScriptServiceClient`)

The modelled state is the part of the client the claims are about: the
request queue, the correlation table, the restart accounting
(`numberRestarts`, `lastStart`) and the cancellation side-channel
configuration (`_apiVersion.gte(API.v222)` and `cancellationPipeName`).
`servicePromise`, logging, telemetry, version pickers and the editor-facing
event emitters carry no state any claim mentions.  The client is driven by
an event loop; each entry point below is one synchronously-executed
JavaScript turn, returning the new state and the effects it performed. -/

structure ClientState where
  requestQueue : RequestQueue := {}
  callbacks : CallbackMap := {}
  apiVersionGte222 : Bool := false
  cancellationPipeName : Option String := none
  numberRestarts : Nat := 0
  lastStart : Nat := 0
  deriving DecidableEq, Repr

/-- An incoming message, discriminated as `dispatchMessage` does: a
response, the `requestCompleted` event (whose body carries a
`request_seq`), any other event (routed to the event emitters, which never
touch the modelled state), or a message of unknown `type`. -/
inductive Message where
  | response : Response → Message
  | requestCompleted : Nat → Message
  | otherEvent : String → Message
  | unknown : String → Message
  deriving DecidableEq, Repr

/-- `sendRequest(requestItem)` up to the resolution of `service()`: if the
item carries callbacks they are registered in the correlation table, and
the request is written to the worker (the `.then(childProcess.write)`
continuation).  The `.then(undefined, err => ...)` failure continuation
runs in a later event-loop turn and is `handleSendFailure` below. -/
def sendRequest (s : ClientState) (item : RequestItem) : ClientState × List Effect :=
  let cbs :=
    match item.callbacks with
    | some cb => s.callbacks.add item.request.seq cb item.isAsync
    | none => s.callbacks
  ({ s with callbacks := cbs }, [Effect.write item.request])

/-- The failure continuation of `sendRequest`'s `service()` promise:
`const callback = this.callbacks.fetch(serverRequest.seq); if (callback) callback.e(err);`. -/
def handleSendFailure (s : ClientState) (seq : Nat) (e : ErrVal) :
    ClientState × List Effect :=
  let f := s.callbacks.fetch seq
  ({ s with callbacks := f.2 },
    match f.1 with
    | some cb => [Effect.reject cb.reqSeq (Value.err e)]
    | none => [])

/-- `sendNextRequests()`: while `pendingResponses === 0 && queue.length > 0`,
shift the next item and send it. -/
def sendNextRequests (s : ClientState) : ClientState × List Effect :=
  if s.callbacks.pendingResponses = 0 then
    match h : s.requestQueue.queue with
    | [] => (s, [])
    | item :: rest =>
        let s1 : ClientState :=
          { s with requestQueue := { s.requestQueue with queue := rest } }
        let r1 := sendRequest s1 item
        let r2 := sendNextRequests r1.1
        (r2.1, r1.2 ++ r2.2)
  else (s, [])
termination_by s.requestQueue.queue.length
decreasing_by
  simp only [sendRequest]
  rw [h]
  simp

/-- The execution context passed to `executeImpl`. -/
structure ExecuteInfo where
  «isAsync» : Bool
  expectsResult : Bool
  deriving DecidableEq, Repr

/-- `executeImpl(command, args, executeInfo)`: allocate the request,
attach a callback item when a result is expected (the promise executor
runs synchronously, so `requestInfo.callbacks` is set before the push),
push it and drain.  `now` is `Date.now()` of this turn. -/
def executeImpl (s : ClientState) (command : String) (args : Nat)
    (info : ExecuteInfo) (now : Nat) : ClientState × List Effect :=
  let cr := s.requestQueue.createRequest command args
  let request := cr.1
  let requestInfo : RequestItem :=
    { request := request,
      callbacks :=
        if info.expectsResult then some { reqSeq := request.seq, start := now }
        else none,
      «isAsync» := info.isAsync }
  sendNextRequests { s with requestQueue := cr.2.push requestInfo }

/-- The request-queue/correlation-table slice of `startService`: a fresh
`RequestQueue` and a fresh `CallbackMap` are installed, a worker is
forked, and `this.lastStart = Date.now()` once the fork succeeds.  Path
resolution, argument building and reader attachment are external. -/
def startServiceModel (s : ClientState) (now : Nat) : ClientState × List Effect :=
  ({ s with requestQueue := {}, callbacks := {}, lastStart := now },
    [Effect.spawn])

/-- `serviceExited(restart)`: destroy all pending callbacks with
`Error("Service died.")`, install a fresh `CallbackMap`, and apply the
restart policy.  `resetClientVersion` only touches version-reporting
fields outside the modelled state.  `now` is `Date.now()` of this turn;
the model re-uses it for the `lastStart` of an immediately restarted
session. -/
def serviceExited (s : ClientState) (restart : Bool) (now : Nat) :
    ClientState × List Effect :=
  let d := s.callbacks.destroy ErrVal.serviceDied
  let destroyEffs := d.2
  let s1 : ClientState := { s with callbacks := {} }
  if !restart then
    (s1, destroyEffs)
  else
    let diff := now - s.lastStart
    let s2 : ClientState := { s1 with numberRestarts := s1.numberRestarts + 1 }
    if s2.numberRestarts > 5 then
      let s3 : ClientState := { s2 with numberRestarts := 0 }
      if diff < 10 * 1000 then
        ({ s3 with lastStart := now }, destroyEffs ++ [Effect.promptFatal])
      else if diff < 60 * 1000 then
        let r := startServiceModel { s3 with lastStart := now } now
        (r.1, destroyEffs ++ [Effect.promptWarn] ++ r.2)
      else
        let r := startServiceModel s3 now
        (r.1, destroyEffs ++ r.2)
    else
      let r := startServiceModel s2 now
      (r.1, destroyEffs ++ r.2)

/-- `tryCancelRequest(seq)`: try the in-queue cancel, else the
cancellation pipe when the API is at least 2.2.2 and a pipe name exists,
else report failure; the `finally` clause always fetches the registered
callback for `seq` and, when present, rejects it with
`Error("Cancelled Request <seq>")`.  Returns (state, effects, returned
boolean). -/
def tryCancelRequest (s : ClientState) (seq : Nat) :
    ClientState × List Effect × Bool :=
  let c := s.requestQueue.tryCancelPendingRequest seq
  let tryResult : ClientState × List Effect × Bool :=
    if c.1 then
      ({ s with requestQueue := c.2 }, [], true)
    else if s.apiVersionGte222 && s.cancellationPipeName.isSome then
      (s, [Effect.cancelMarker seq], true)
    else
      (s, [], false)
  let sTry := tryResult.1
  let f := sTry.callbacks.fetch seq
  let sFin : ClientState := { sTry with callbacks := f.2 }
  let rejectEffs : List Effect :=
    match f.1 with
    | some cb => [Effect.reject cb.reqSeq (Value.err (ErrVal.cancelled seq))]
    | none => []
  (sFin, tryResult.2.1 ++ rejectEffs, tryResult.2.2)

/-- `dispatchMessage(message)`: handle one incoming message inside
`try ... finally this.sendNextRequests()`.  The third component is the
error thrown out of the `try` body (only for an unknown message type);
the `finally` drain runs in every case before it propagates. -/
def dispatchMessage (s : ClientState) (m : Message) :
    ClientState × List Effect × Option ErrVal :=
  let body : ClientState × List Effect × Option ErrVal :=
    match m with
    | Message.response r =>
        let f := s.callbacks.fetch r.request_seq
        let s1 : ClientState := { s with callbacks := f.2 }
        match f.1 with
        | some cb =>
            (s1,
              [if r.success then Effect.resolve cb.reqSeq (Value.respMsg r)
               else Effect.reject cb.reqSeq (Value.respMsg r)], none)
        | none => (s1, [], none)
    | Message.requestCompleted rseq =>
        let f := s.callbacks.fetch rseq
        let s1 : ClientState := { s with callbacks := f.2 }
        match f.1 with
        | some cb => (s1, [Effect.resolve cb.reqSeq Value.undef], none)
        | none => (s1, [], none)
    | Message.otherEvent _ => (s, [], none)
    | Message.unknown t => (s, [], some (ErrVal.unknownMessageType t))
  let drained := sendNextRequests body.1
  (drained.1, body.2.1 ++ drained.2, body.2.2)

/-! ### Auxiliary lemmas about the operations -/

theorem JMap.del_sublist {β : Type} (m : JMap β) (k : Nat) :
    (JMap.del m k).1.Sublist m := by
  induction m with
  | nil => simp [JMap.del]
  | cons p rest ih =>
    by_cases hk : p.1 = k
    · simp [JMap.del, hk]
    · simp only [JMap.del, if_neg hk]
      exact List.Sublist.cons₂ p ih

theorem RequestQueue.removeFirstSeq_sublist (seq : Nat) (l : List RequestItem)
    (l' : List RequestItem) (h : RequestQueue.removeFirstSeq seq l = some l') :
    l'.Sublist l := by
  induction l generalizing l' with
  | nil => simp [RequestQueue.removeFirstSeq] at h
  | cons item rest ih =>
    simp only [RequestQueue.removeFirstSeq] at h
    by_cases hs : item.request.seq = seq
    · rw [if_pos hs] at h
      cases h
      exact List.sublist_cons_self item rest
    · rw [if_neg hs] at h
      cases hrec : RequestQueue.removeFirstSeq seq rest with
      | none => rw [hrec] at h; simp at h
      | some r =>
          rw [hrec] at h
          simp at h
          cases h
          exact List.Sublist.cons₂ item (ih r hrec)

/-- The synchronous branch of `deleteSeq`. -/
theorem CallbackMap.deleteSeq_found (m : CallbackMap) (k : Nat)
    (h : (m.callbacks.del k).2 = true) :
    m.deleteSeq k = { m with callbacks := (m.callbacks.del k).1,
                             pendingResponses := m.pendingResponses - 1 } := by
  unfold CallbackMap.deleteSeq
  simp [h]

/-- The asynchronous branch of `deleteSeq`. -/
theorem CallbackMap.deleteSeq_unfound (m : CallbackMap) (k : Nat)
    (h : (m.callbacks.del k).2 = false) :
    m.deleteSeq k = { m with asyncCallbacks := (m.asyncCallbacks.del k).1 } := by
  unfold CallbackMap.deleteSeq
  simp [h]

/-- What `deleteSeq` does to the quantities the client invariant tracks:
the counter stays in sync with the size of the synchronous map, both maps
only lose entries. -/
theorem CallbackMap.deleteSeq_spec (m : CallbackMap) (k : Nat)
    (hp : m.pendingResponses = (m.syncCount : Int)) :
    (m.deleteSeq k).pendingResponses = ((m.deleteSeq k).syncCount : Int)
      ∧ (m.deleteSeq k).syncCount ≤ m.syncCount
      ∧ (m.deleteSeq k).callbacks.Sublist m.callbacks
      ∧ (m.deleteSeq k).asyncCallbacks.Sublist m.asyncCallbacks := by
  unfold CallbackMap.deleteSeq
  by_cases hf : (m.callbacks.del k).2
  · simp only [hf, if_true]
    have hlen := JMap.del_length_of_found m.callbacks k hf
    refine ⟨?_, ?_, JMap.del_sublist m.callbacks k, List.Sublist.refl _⟩
    · simp only [CallbackMap.syncCount] at hp ⊢
      omega
    · simp only [CallbackMap.syncCount]
      omega
  · simp only [hf, if_false]
    simp only [Bool.not_eq_true] at hf
    rw [JMap.del_unfound_eq m.callbacks k hf]
    exact ⟨hp, le_refl _, List.Sublist.refl _, JMap.del_sublist m.asyncCallbacks k⟩

/-- The drain loop does nothing when the gate is held (a synchronous
response is outstanding) or the queue is empty. -/
theorem sendNextRequests_gate (s : ClientState)
    (h : s.callbacks.pendingResponses ≠ 0 ∨ s.requestQueue.queue = []) :
    sendNextRequests s = (s, []) := by
  rcases h with h | h
  · rw [sendNextRequests]
    simp [h]
  · rw [sendNextRequests]
    split
    · split
      · rfl
      · rename_i item rest heq
        rw [h] at heq
        cases heq
    · rfl

/-- One iteration of the drain loop. -/
theorem sendNextRequests_step (s : ClientState) (item : RequestItem)
    (rest : List RequestItem)
    (hp : s.callbacks.pendingResponses = 0)
    (hq : s.requestQueue.queue = item :: rest) :
    sendNextRequests s =
      ((sendNextRequests
          (sendRequest
            { s with requestQueue := { s.requestQueue with queue := rest } } item).1).1,
        (sendRequest
            { s with requestQueue := { s.requestQueue with queue := rest } } item).2
          ++ (sendNextRequests
              (sendRequest
                { s with requestQueue := { s.requestQueue with queue := rest } } item).1).2) := by
  rw [sendNextRequests]
  rw [if_pos hp]
  split
  · rename_i heq
    rw [hq] at heq
    cases heq
  · rename_i item' rest' heq
    rw [hq] at heq
    cases heq
    rfl

/-- All sequence numbers the client currently holds a reference to: keys
of the two callback maps and seqs of the queued requests. -/
def allSeqs (s : ClientState) : List Nat :=
  s.callbacks.callbacks.keys ++ s.callbacks.asyncCallbacks.keys
    ++ s.requestQueue.queue.map fun item => item.request.seq

/-- The client invariant: the pending-response counter agrees with the
number of synchronous registrations, at most one synchronous request is
registered (in flight), every held sequence number is below the allocator,
and no sequence number is held twice. -/
structure ClientInv (s : ClientState) : Prop where
  pend_eq : s.callbacks.pendingResponses = (s.callbacks.syncCount : Int)
  gate : s.callbacks.syncCount ≤ 1
  fresh : ∀ k ∈ allSeqs s, k < s.requestQueue.sequenceNumber
  nodup : (allSeqs s).Nodup

theorem allSeqs_decompose (s : ClientState) :
    allSeqs s = s.callbacks.callbacks.keys ++ s.callbacks.asyncCallbacks.keys
      ++ s.requestQueue.queue.map (fun item => item.request.seq) := rfl

/-- Replacing the callback table by one whose maps are sublists, and the
queue by a subset of the queue, preserves the freshness and no-duplication
clauses. -/
theorem clientInv_shrink (s : ClientState) (m' : CallbackMap)
    (q' : List RequestItem)
    (hS : m'.callbacks.Sublist s.callbacks.callbacks)
    (hA : m'.asyncCallbacks.Sublist s.callbacks.asyncCallbacks)
    (hQ : q'.Sublist s.requestQueue.queue)
    (hpend : m'.pendingResponses = (m'.syncCount : Int))
    (hgate : m'.syncCount ≤ 1)
    (hInv : ClientInv s) :
    ClientInv { s with callbacks := m',
                       requestQueue := { s.requestQueue with queue := q' } } := by
  have hsub : List.Sublist
      (allSeqs
        { s with callbacks := m',
                 requestQueue := { s.requestQueue with queue := q' } })
      (allSeqs s) := by
    unfold allSeqs JMap.keys
    exact ((hS.map Prod.fst).append (hA.map Prod.fst)).append
      (hQ.map fun item => item.request.seq)
  exact { pend_eq := hpend
          gate := hgate
          fresh := fun k hk => hInv.fresh k (hsub.subset hk)
          nodup := hInv.nodup.sublist hsub }

/-- `fetch` (and the `deleteSeq` inside it) preserves the client invariant. -/
theorem clientInv_fetch (s : ClientState) (k : Nat) (hInv : ClientInv s) :
    ClientInv { s with callbacks := (s.callbacks.fetch k).2 } := by
  obtain ⟨h1, h2, h3, h4⟩ := CallbackMap.deleteSeq_spec s.callbacks k hInv.pend_eq
  have := clientInv_shrink s (s.callbacks.deleteSeq k) s.requestQueue.queue
    h3 h4 (List.Sublist.refl _) h1 (le_trans h2 hInv.gate) hInv
  simpa [CallbackMap.fetch] using this

/-- Sending the front item of the queue from an open gate preserves the
client invariant (and closes the gate when the item is synchronous). -/
theorem sendRequest_inv (s : ClientState) (item : RequestItem)
    (rest : List RequestItem)
    (hq : s.requestQueue.queue = item :: rest)
    (hp : s.callbacks.pendingResponses = 0)
    (hInv : ClientInv s) :
    ClientInv (sendRequest
      { s with requestQueue := { s.requestQueue with queue := rest } } item).1 := by
  have hsync0 : s.callbacks.syncCount = 0 := by
    have := hInv.pend_eq
    rw [hp] at this
    exact_mod_cast this.symm
  have hsyncnil : s.callbacks.callbacks = [] :=
    List.length_eq_zero.mp hsync0
  have hall : allSeqs s = s.callbacks.callbacks.keys
      ++ s.callbacks.asyncCallbacks.keys
      ++ (item.request.seq :: rest.map fun i => i.request.seq) := by
    rw [allSeqs_decompose, hq]
    rfl
  cases hcb : item.callbacks with
  | none =>
      simp only [sendRequest, hcb]
      refine { pend_eq := hInv.pend_eq, gate := hInv.gate, fresh := ?_, nodup := ?_ }
      · intro a ha
        apply hInv.fresh
        rw [hall]
        unfold allSeqs at ha
        simp only [List.mem_append] at ha ⊢
        rcases ha with (ha | ha) | ha
        · exact Or.inl (Or.inl ha)
        · exact Or.inl (Or.inr ha)
        · exact Or.inr (List.mem_cons_of_mem _ ha)
      · have hsub : List.Sublist
            (allSeqs
              { s with callbacks := s.callbacks,
                       requestQueue := { s.requestQueue with queue := rest } })
            (allSeqs s) := by
          rw [hall]
          unfold allSeqs
          exact List.Sublist.append (List.Sublist.refl _)
            (List.sublist_cons_self _ _)
        exact hInv.nodup.sublist hsub
  | some cb =>
      cases hasync : item.isAsync with
      | true =>
          have hnotmem : item.request.seq ∉ s.callbacks.asyncCallbacks.keys := by
            have := hInv.nodup
            rw [hall] at this
            have h2 := (List.nodup_append.mp this).2.2
            intro hmem
            exact h2 (List.mem_append.mpr (Or.inr hmem)) (List.mem_cons_self _ _)
          simp only [sendRequest, hcb, CallbackMap.add, hasync, if_true]
          have hset := JMap.set_of_not_mem s.callbacks.asyncCallbacks
            item.request.seq cb hnotmem
          refine { pend_eq := hInv.pend_eq, gate := hInv.gate, fresh := ?_, nodup := ?_ }
          all_goals
            have hEq :
                allSeqs
                  { s with
                      callbacks :=
                        { s.callbacks with
                            asyncCallbacks :=
                              s.callbacks.asyncCallbacks.set item.request.seq cb },
                      requestQueue := { s.requestQueue with queue := rest } }
                  = allSeqs s := by
              rw [hall]
              unfold allSeqs JMap.keys
              simp only [hset, List.map_append]
              simp
          · rw [hEq]
            exact hInv.fresh
          · rw [hEq]
            exact hInv.nodup
      | false =>
          simp only [sendRequest, hcb, CallbackMap.add, hasync, if_false]
          have hsetnil : s.callbacks.callbacks.set item.request.seq cb
              = [(item.request.seq, cb)] := by
            rw [hsyncnil]
            rfl
          have hperm : List.Perm
              (allSeqs
                { s with
                    callbacks :=
                      { s.callbacks with
                          callbacks := s.callbacks.callbacks.set item.request.seq cb,
                          pendingResponses := s.callbacks.pendingResponses + 1 },
                    requestQueue := { s.requestQueue with queue := rest } })
              (allSeqs s) := by
            rw [hall, hsyncnil]
            unfold allSeqs JMap.keys
            simp only [hsetnil]
            simp only [List.map_cons, List.map_nil, List.nil_append,
              List.cons_append, List.singleton_append]
            exact List.perm_middle.symm
          refine { pend_eq := ?_, gate := ?_, fresh := ?_, nodup := ?_ }
          · simp only [CallbackMap.syncCount, hsetnil, hp]
            simp
          · simp only [CallbackMap.syncCount, hsetnil]
            simp
          · intro a ha
            exact hInv.fresh a (hperm.subset ha)
          · exact hInv.nodup.perm hperm.symm

/-- The drain loop preserves the client invariant: in particular, after a
synchronous item is registered the gate closes and the loop stops, so the
synchronous map never holds more than one entry. -/
theorem sendNextRequests_inv : ∀ (n : Nat) (s : ClientState),
    s.requestQueue.queue.length ≤ n → ClientInv s →
    ClientInv (sendNextRequests s).1 := by
  intro n
  induction n with
  | zero =>
      intro s hlen hInv
      have hq : s.requestQueue.queue = [] :=
        List.eq_nil_of_length_eq_zero (Nat.le_zero.mp hlen)
      rw [sendNextRequests_gate s (Or.inr hq)]
      exact hInv
  | succ n ih =>
      intro s hlen hInv
      by_cases hp : s.callbacks.pendingResponses = 0
      · cases hq : s.requestQueue.queue with
        | nil =>
            rw [sendNextRequests_gate s (Or.inr hq)]
            exact hInv
        | cons item rest =>
            rw [sendNextRequests_step s item rest hp hq]
            simp only
            apply ih
            · have : (sendRequest { s with
                  requestQueue := { s.requestQueue with queue := rest } }
                    item).1.requestQueue.queue = rest := by
                unfold sendRequest
                cases item.callbacks <;> rfl
              rw [this]
              rw [hq] at hlen
              simpa using Nat.le_of_succ_le_succ hlen
            · exact sendRequest_inv s item rest hq hp hInv
      · rw [sendNextRequests_gate s (Or.inl hp)]
        exact hInv

/-- Shorthand: the drain preserves the invariant. -/
theorem clientInv_drain (s : ClientState) (h : ClientInv s) :
    ClientInv (sendNextRequests s).1 :=
  sendNextRequests_inv s.requestQueue.queue.length s (le_refl _) h

/-- The invariant only looks at the queue and the callback table. -/
theorem clientInv_congr (s s' : ClientState)
    (hq : s'.requestQueue = s.requestQueue) (hc : s'.callbacks = s.callbacks)
    (h : ClientInv s) : ClientInv s' := by
  have hall : allSeqs s' = allSeqs s := by
    unfold allSeqs
    rw [hq, hc]
  exact { pend_eq := by rw [hc]; exact h.pend_eq
          gate := by rw [hc]; exact h.gate
          fresh := by rw [hall, hq]; exact h.fresh
          nodup := by rw [hall]; exact h.nodup }

/-- Installing a fresh (empty) callback table preserves the invariant. -/
theorem clientInv_empty_cbs (s : ClientState) (h : ClientInv s) :
    ClientInv { s with callbacks := {} } := by
  have := clientInv_shrink s {} s.requestQueue.queue
    (List.nil_sublist _) (List.nil_sublist _) (List.Sublist.refl _)
    (by rfl) (by simp [CallbackMap.syncCount, JMap.empty]) h
  exact clientInv_congr _ _ (by rfl) rfl this

/-- Enqueueing the freshly allocated request preserves the invariant:
its sequence number is new. -/
theorem clientInv_push (s : ClientState) (item : RequestItem)
    (hseq : item.request.seq = s.requestQueue.sequenceNumber)
    (h : ClientInv s) :
    ClientInv { s with requestQueue :=
      { queue := s.requestQueue.queue ++ [item],
        sequenceNumber := s.requestQueue.sequenceNumber + 1 } } := by
  set n := s.requestQueue.sequenceNumber with hn
  have hall : allSeqs { s with requestQueue :=
      { queue := s.requestQueue.queue ++ [item],
        sequenceNumber := n + 1 } } = allSeqs s ++ [n] := by
    simp [allSeqs, List.map_append, hseq, List.append_assoc]
  have hnmem : n ∉ allSeqs s := fun hm => absurd (h.fresh n hm) (lt_irrefl n)
  constructor
  · exact h.pend_eq
  · exact h.gate
  · rw [hall]
    intro k hk
    rcases List.mem_append.mp hk with hk | hk
    · exact Nat.lt_succ_of_lt (h.fresh k hk)
    · rw [List.mem_singleton.mp hk]
      exact Nat.lt_succ_self n
  · rw [hall]
    refine List.Nodup.append h.nodup (List.nodup_singleton n) ?_
    intro x hx hx'
    rw [List.mem_singleton.mp hx'] at hx
    exact hnmem hx

theorem executeImpl_inv (s : ClientState) (c : String) (a : Nat)
    (i : ExecuteInfo) (t : Nat) (h : ClientInv s) :
    ClientInv (executeImpl s c a i t).1 := by
  unfold executeImpl RequestQueue.createRequest RequestQueue.push
  apply clientInv_drain
  exact clientInv_push s _ rfl h

theorem dispatchMessage_inv (s : ClientState) (m : Message) (h : ClientInv s) :
    ClientInv (dispatchMessage s m).1 := by
  unfold dispatchMessage
  cases m with
  | response r =>
      have hbody := clientInv_fetch s r.request_seq h
      cases hf : (s.callbacks.fetch r.request_seq).1 <;>
        simpa [hf] using clientInv_drain _ hbody
  | requestCompleted rseq =>
      have hbody := clientInv_fetch s rseq h
      cases hf : (s.callbacks.fetch rseq).1 <;>
        simpa [hf] using clientInv_drain _ hbody
  | otherEvent e =>
      simpa using clientInv_drain s h
  | unknown t =>
      simpa using clientInv_drain s h

theorem tryCancelRequest_inv (s : ClientState) (k : Nat) (h : ClientInv s) :
    ClientInv (tryCancelRequest s k).1 := by
  unfold tryCancelRequest
  set c := s.requestQueue.tryCancelPendingRequest k with hc
  have hTry : ∀ sTry, sTry = (if c.1 then ({ s with requestQueue := c.2 },
        ([] : List Effect), true)
      else if s.apiVersionGte222 && s.cancellationPipeName.isSome then
        (s, [Effect.cancelMarker k], true)
      else (s, [], false)) → ClientInv sTry.1 := by
    intro sTry hs
    by_cases h1 : c.1
    · rw [hs, if_pos h1]
      unfold RequestQueue.tryCancelPendingRequest at hc
      cases hrem : RequestQueue.removeFirstSeq k s.requestQueue.queue with
      | none =>
          rw [hrem] at hc
          simp [hc] at h1
      | some rest =>
          rw [hrem] at hc
          simp only [hc]
          have hsub := RequestQueue.removeFirstSeq_sublist k _ rest hrem
          exact clientInv_shrink s s.callbacks rest
            (List.Sublist.refl _) (List.Sublist.refl _) hsub h.pend_eq h.gate h
    · rw [hs, if_neg h1]
      by_cases h2 : s.apiVersionGte222 && s.cancellationPipeName.isSome
      · rw [if_pos h2]
        exact h
      · rw [if_neg h2]
        exact h
  exact clientInv_fetch _ k (hTry _ rfl)

theorem serviceExited_inv (s : ClientState) (restart : Bool) (t : Nat)
    (h : ClientInv s) : ClientInv (serviceExited s restart t).1 := by
  unfold serviceExited
  have hempty := clientInv_empty_cbs s h
  have hreset : ∀ s' t', ClientInv (startServiceModel s' t').1 := by
    intro s' t'
    refine { pend_eq := ?_, gate := ?_, fresh := ?_, nodup := ?_ } <;>
      simp [startServiceModel, allSeqs, CallbackMap.syncCount, JMap.keys, JMap.empty]
  cases restart with
  | false => simpa using hempty
  | true =>
      simp only [Bool.not_true, Bool.false_eq_true, if_false]
      split
      · split
        · exact clientInv_congr { s with callbacks := {} } _ rfl rfl hempty
        · split
          · exact hreset _ _
          · exact hreset _ _
      · exact hreset _ _

theorem handleSendFailure_inv (s : ClientState) (k : Nat) (e : ErrVal)
    (h : ClientInv s) : ClientInv (handleSendFailure s k e).1 := by
  unfold handleSendFailure
  exact clientInv_fetch s k h

/-- Modelled from the spec: the wire-protocol `Reader` (in
`utils/wireProtocol`, which is not part of the sources) delivers each
decoded message to the client's callback; a per-message error escaping the
callback is "logged and dropped per-message; does not affect other
in-flight work", so the error `dispatchMessage` throws for an unknown
message type is logged and the client carries on. -/
def readerOnMessage (s : ClientState) (m : Message) : ClientState × List Effect :=
  let r := dispatchMessage s m
  match r.2.2 with
  | none => (r.1, r.2.1)
  | some e => (r.1, r.2.1 ++ [Effect.logError e])

theorem readerOnMessage_inv (s : ClientState) (m : Message) (h : ClientInv s) :
    ClientInv (readerOnMessage s m).1 := by
  unfold readerOnMessage
  cases hr : (dispatchMessage s m).2.2 <;>
    simpa [hr] using dispatchMessage_inv s m h

/-- One event-loop turn of the client: a caller issues a request, the
reader delivers a message, a cancellation token fires, the worker exits,
the `service()` promise of a sent request rejects, or a (re)start updates
the negotiated version and cancellation pipe. -/
inductive ClientStep : ClientState → ClientState → Prop where
  | exec : ∀ (s : ClientState) (c : String) (a : Nat) (i : ExecuteInfo) (t : Nat),
      ClientStep s (executeImpl s c a i t).1
  | message : ∀ (s : ClientState) (m : Message),
      ClientStep s (readerOnMessage s m).1
  | cancel : ∀ (s : ClientState) (k : Nat),
      ClientStep s (tryCancelRequest s k).1
  | exited : ∀ (s : ClientState) (r : Bool) (t : Nat),
      ClientStep s (serviceExited s r t).1
  | sendFail : ∀ (s : ClientState) (k : Nat) (e : ErrVal),
      ClientStep s (handleSendFailure s k e).1
  | config : ∀ (s : ClientState) (g : Bool) (p : Option String),
      ClientStep s { s with apiVersionGte222 := g, cancellationPipeName := p }

/-- A freshly constructed client: empty queue (allocator at 0) and empty
correlation table, as installed by the constructor. -/
def Initial (s : ClientState) : Prop :=
  s.requestQueue = {} ∧ s.callbacks = {}

/-- States the client can be in: some sequence of event-loop turns from a
freshly constructed client. -/
def Reachable (s : ClientState) : Prop :=
  ∃ s0 : ClientState, Initial s0 ∧ Relation.ReflTransGen ClientStep s0 s

theorem clientInv_initial (s : ClientState) (h : Initial s) : ClientInv s := by
  obtain ⟨hq, hc⟩ := h
  refine { pend_eq := ?_, gate := ?_, fresh := ?_, nodup := ?_ } <;>
    simp [allSeqs, hq, hc, CallbackMap.syncCount, JMap.keys, JMap.empty]

theorem clientStep_inv (s s' : ClientState) (hstep : ClientStep s s')
    (h : ClientInv s) : ClientInv s' := by
  cases hstep with
  | exec c a i t => exact executeImpl_inv s c a i t h
  | message m => exact readerOnMessage_inv s m h
  | cancel k => exact tryCancelRequest_inv s k h
  | exited r t => exact serviceExited_inv s r t h
  | sendFail k e => exact handleSendFailure_inv s k e h
  | config g p => exact clientInv_congr s _ rfl rfl h

theorem reachable_inv (s : ClientState) (h : Reachable s) : ClientInv s := by
  obtain ⟨s0, h0, hsteps⟩ := h
  induction hsteps with
  | refl => exact clientInv_initial s0 h0
  | tail _ hstep ih => exact clientStep_inv _ _ hstep ih

/-! ### Claim theorems -/

/-- The sequence numbers produced by a series of `createRequest` calls. -/
def seqsFromCalls (q : RequestQueue) : List (String × Nat) → List Nat
  | [] => []
  | (c, a) :: rest =>
      (q.createRequest c a).1.seq :: seqsFromCalls (q.createRequest c a).2 rest

theorem seqsFromCalls_eq_range (q : RequestQueue) (calls : List (String × Nat)) :
    seqsFromCalls q calls = List.range' q.sequenceNumber calls.length := by
  induction calls generalizing q with
  | nil => rfl
  | cons p rest ih =>
      cases p with
      | mk c a =>
          simp only [seqsFromCalls, RequestQueue.createRequest, List.length_cons,
            List.range'_succ]
          rw [ih]

/-- C6: within one session the allocator hands out `sequenceNumber++`:
every call returns the current counter and bumps it by one, a series of
calls yields the consecutive range (hence strictly increasing and
duplicate-free), a fresh queue starts at 0, and `startService` installs a
fresh queue, so the counter is 0 after every session replacement. -/
theorem claim_C6_seq_allocation :
    (∀ (q : RequestQueue) (c : String) (a : Nat),
      (q.createRequest c a).1.seq = q.sequenceNumber
        ∧ (q.createRequest c a).2.sequenceNumber = q.sequenceNumber + 1)
    ∧ (∀ (q : RequestQueue) (calls : List (String × Nat)),
        seqsFromCalls q calls = List.range' q.sequenceNumber calls.length
          ∧ (seqsFromCalls q calls).Pairwise (· < ·)
          ∧ (seqsFromCalls q calls).Nodup)
    ∧ ({} : RequestQueue).sequenceNumber = 0
    ∧ (∀ (s : ClientState) (t : Nat),
        (startServiceModel s t).1.requestQueue.sequenceNumber = 0
          ∧ (startServiceModel s t).1.requestQueue.queue = []) := by
  refine ⟨fun q c a => ⟨rfl, rfl⟩, fun q calls => ?_, rfl, fun s t => ⟨rfl, rfl⟩⟩
  have h := seqsFromCalls_eq_range q calls
  refine ⟨h, ?_, ?_⟩
  · rw [h]
    exact List.pairwise_lt_range' _ _
  · rw [h]
    exact List.nodup_range' ..

/-- Well-formedness of a correlation table: no key occurs twice, within a
map or across the two maps.  This holds in every reachable client state
(it is part of `ClientInv`). -/
def CallbackMap.WF (m : CallbackMap) : Prop :=
  (m.callbacks.keys ++ m.asyncCallbacks.keys).Nodup

/-- C7: on a well-formed table, `fetch(seq)` returns the registered
callback (looking in the synchronous map first, then the asynchronous
one), a second fetch of the same seq returns nothing, and the
pending-response counter is decremented exactly when the removed entry was
a synchronous registration. -/
theorem claim_C7_fetch (m : CallbackMap) (seq : Nat) (hwf : m.WF) :
    (m.fetch seq).1 = (m.callbacks.get seq).or (m.asyncCallbacks.get seq)
      ∧ (((m.fetch seq).2).fetch seq).1 = none
      ∧ ((m.callbacks.get seq).isSome →
          (m.fetch seq).2.pendingResponses = m.pendingResponses - 1)
      ∧ ((m.callbacks.get seq).isSome = false →
          (m.fetch seq).2.pendingResponses = m.pendingResponses) := by
  have hndS : m.callbacks.keys.Nodup := (List.nodup_append.mp hwf).1
  have hndA : m.asyncCallbacks.keys.Nodup := (List.nodup_append.mp hwf).2.1
  have hdisj : ∀ k, k ∈ m.callbacks.keys → k ∉ m.asyncCallbacks.keys :=
    fun k hk hk' => (List.nodup_append.mp hwf).2.2 hk hk'
  refine ⟨rfl, ?_, ?_, ?_⟩
  · -- second fetch finds nothing
    show (((m.deleteSeq seq).callbacks.get seq).or
        ((m.deleteSeq seq).asyncCallbacks.get seq)) = none
    by_cases hf : (m.callbacks.del seq).2
    · rw [CallbackMap.deleteSeq_found m seq hf]
      have hmem : seq ∈ m.callbacks.keys := (JMap.del_found_iff _ _).mp hf
      show ((m.callbacks.del seq).1.get seq).or (m.asyncCallbacks.get seq) = none
      rw [JMap.get_del_same_of_nodup m.callbacks seq hndS]
      rw [JMap.get_eq_none_of_not_mem m.asyncCallbacks seq (hdisj seq hmem)]
      rfl
    · rw [CallbackMap.deleteSeq_unfound m seq (by simpa using hf)]
      have hnotmem : seq ∉ m.callbacks.keys := by
        intro hmem
        rw [(JMap.del_found_iff m.callbacks seq).mpr hmem] at hf
        exact hf rfl
      show (m.callbacks.get seq).or ((m.asyncCallbacks.del seq).1.get seq) = none
      rw [JMap.get_eq_none_of_not_mem m.callbacks seq hnotmem]
      rw [JMap.get_del_same_of_nodup m.asyncCallbacks seq hndA]
      rfl
  · -- synchronous removal decrements the counter
    intro hsome
    have hmem : seq ∈ m.callbacks.keys := by
      cases hg : m.callbacks.get seq with
      | none => rw [hg] at hsome; simp at hsome
      | some v => exact JMap.mem_of_get_eq_some m.callbacks seq v hg
    show (m.deleteSeq seq).pendingResponses = m.pendingResponses - 1
    rw [CallbackMap.deleteSeq_found m seq ((JMap.del_found_iff m.callbacks seq).mpr hmem)]
  · -- otherwise the counter is untouched
    intro hnone
    have hnotmem : seq ∉ m.callbacks.keys := by
      intro hmem
      have := JMap.get_isSome_of_mem m.callbacks seq hmem
      rw [hnone] at this
      simp at this
    show (m.deleteSeq seq).pendingResponses = m.pendingResponses
    rw [CallbackMap.deleteSeq_unfound m seq
      (by rw [JMap.del_of_not_mem m.callbacks seq hnotmem])]

/-- A concrete table with one synchronous and one asynchronous
registration, used to instantiate the `fetch` contract. -/
def wfTable : CallbackMap :=
  { callbacks := [(0, { reqSeq := 0, start := 0 })],
    asyncCallbacks := [(1, { reqSeq := 1, start := 0 })],
    pendingResponses := 1 }

/-- Witness for C7 at `wfTable`. -/
theorem claim_C7_fetch_witness :
    CallbackMap.WF wfTable ∧ (wfTable.fetch 0).2.pendingResponses = 0 := by
  have hwf : CallbackMap.WF wfTable := by
    unfold CallbackMap.WF wfTable
    decide
  refine ⟨hwf, ?_⟩
  have h := claim_C7_fetch wfTable 0 hwf
  have := h.2.2.1 (by decide)
  rw [this]
  decide

/-- A concrete table holding one synchronous (seq 1) and one asynchronous
(seq 3) pending callback. -/
def destroyTable : CallbackMap :=
  { callbacks := [(1, { reqSeq := 1, start := 5 })],
    asyncCallbacks := [(3, { reqSeq := 3, start := 0 })],
    pendingResponses := 1 }

/-- C3 counterexample: `destroy` does not clear the asynchronous callback
map — on a table with a pending asynchronous callback, the map still holds
it afterwards, so "both callback maps are empty" fails. -/
theorem claim_C3_counterexample :
    (destroyTable.destroy ErrVal.serviceDied).1.asyncCallbacks
        = [(3, { reqSeq := 3, start := 0 })]
      ∧ ([(3, ({ reqSeq := 3, start := 0 } : CallbackItem))] : JMap CallbackItem) ≠ [] := by
  decide

/-- Auxiliary count: in the rejection effects produced from a list of
callbacks whose request seqs are pairwise distinct, each callback's
rejection occurs exactly once. -/
theorem count_reject_map (l : List CallbackItem) (e : ErrVal) (cb : CallbackItem)
    (hnd : (l.map CallbackItem.reqSeq).Nodup) (hcb : cb ∈ l) :
    (l.map fun x => Effect.reject x.reqSeq (Value.err e)).count
      (Effect.reject cb.reqSeq (Value.err e)) = 1 := by
  have hg : Function.Injective (fun r => Effect.reject r (Value.err e)) := by
    intro a b hab
    simpa using hab
  have hmapmap : (l.map fun x => Effect.reject x.reqSeq (Value.err e))
      = (l.map CallbackItem.reqSeq).map (fun r => Effect.reject r (Value.err e)) := by
    rw [List.map_map]
    rfl
  rw [hmapmap, List.count_map_of_injective _ _ hg]
  exact List.count_eq_one_of_mem hnd (List.mem_map_of_mem _ hcb)

/-- C3 (amended): `destroy(reason)` invokes the failure path of every
still-pending callback — both synchronous and asynchronous — exactly once
each with the given reason (once each callback is registered under a
distinct seq, as in every reachable state), clears the synchronous map and
zeroes the pending-response counter; the asynchronous map, however, is NOT
cleared — `serviceExited` discards the whole table right afterwards. -/
theorem claim_C3_destroy (m : CallbackMap) (e : ErrVal)
    (hnd : ((m.callbacks.values ++ m.asyncCallbacks.values).map
      CallbackItem.reqSeq).Nodup) :
    (m.destroy e).2
        = (m.callbacks.values ++ m.asyncCallbacks.values).map
            (fun cb => Effect.reject cb.reqSeq (Value.err e))
      ∧ (∀ cb ∈ m.callbacks.values ++ m.asyncCallbacks.values,
          (m.destroy e).2.count (Effect.reject cb.reqSeq (Value.err e)) = 1)
      ∧ (m.destroy e).1.callbacks = []
      ∧ (m.destroy e).1.pendingResponses = 0
      ∧ (m.destroy e).1.asyncCallbacks = m.asyncCallbacks := by
  have heffs : (m.destroy e).2
      = (m.callbacks.values ++ m.asyncCallbacks.values).map
          (fun cb => Effect.reject cb.reqSeq (Value.err e)) := by
    simp [CallbackMap.destroy, List.map_append]
  refine ⟨heffs, ?_, rfl, rfl, rfl⟩
  intro cb hcb
  rw [heffs]
  exact count_reject_map _ e cb hnd hcb

/-- Witness for C3 at `destroyTable`. -/
theorem claim_C3_destroy_witness :
    (destroyTable.destroy ErrVal.serviceDied).2
        = [Effect.reject 1 (Value.err ErrVal.serviceDied),
           Effect.reject 3 (Value.err ErrVal.serviceDied)]
      ∧ (destroyTable.destroy ErrVal.serviceDied).1.pendingResponses = 0 := by
  have h := claim_C3_destroy destroyTable ErrVal.serviceDied (by decide)
  refine ⟨?_, h.2.2.2.1⟩
  rw [h.1]
  rfl

/-- C9: a message whose `type` is neither `response` nor `event` is
dropped at message granularity: no callback is settled and nothing but the
`finally` re-run of the drain rule happens to the state; the error thrown
by `dispatchMessage` is logged by the reader wrapper (modelled from the
spec) instead of crashing the client, and the drain effects still occur. -/
theorem claim_C9_unknown_message (s : ClientState) (t : String) :
    readerOnMessage s (Message.unknown t)
      = ((sendNextRequests s).1,
          (sendNextRequests s).2 ++ [Effect.logError (ErrVal.unknownMessageType t)])
    ∧ (dispatchMessage s (Message.unknown t)).2.2
        = some (ErrVal.unknownMessageType t) := by
  constructor
  · unfold readerOnMessage dispatchMessage
    simp
  · unfold dispatchMessage
    simp

/-- Iterated unexpected worker exits at the given times. -/
def crashTimes : ClientState → List Nat → ClientState
  | s, [] => s
  | s, t :: rest => crashTimes (serviceExited s true t).1 rest

/-- Every effect `destroy` emits is a rejection; no spawn and no prompt
comes out of it. -/
theorem destroy_effects_are_rejects (m : CallbackMap) (e : ErrVal) (x : Effect)
    (hx : x ∈ (m.destroy e).2) : ∃ r v, x = Effect.reject r v := by
  simp only [CallbackMap.destroy, List.mem_append, List.mem_map] at hx
  rcases hx with ⟨cb, _, h⟩ | ⟨cb, _, h⟩ <;> exact ⟨_, _, h.symm⟩

/-- C4: the restart policy.  The counter is incremented per crash; while
it stays at 5 or below the worker is restarted silently.  Once it exceeds
5 it is reset and the time since the last session start decides: under 10
seconds no restart happens and the fatal notice is surfaced; under 60
seconds the worker is restarted with a warning; otherwise it is restarted
silently.  In particular, six crashes each within 10 seconds of the
session start suppress the restart at the sixth. -/
theorem claim_C4_restart_policy :
    (∀ (s : ClientState) (t : Nat), s.numberRestarts + 1 ≤ 5 →
      (serviceExited s true t).1.numberRestarts = s.numberRestarts + 1
        ∧ Effect.spawn ∈ (serviceExited s true t).2
        ∧ Effect.promptFatal ∉ (serviceExited s true t).2
        ∧ Effect.promptWarn ∉ (serviceExited s true t).2)
    ∧ (∀ (s : ClientState) (t : Nat), s.numberRestarts + 1 > 5 →
        t - s.lastStart < 10 * 1000 →
        (serviceExited s true t).1.numberRestarts = 0
          ∧ Effect.spawn ∉ (serviceExited s true t).2
          ∧ Effect.promptFatal ∈ (serviceExited s true t).2)
    ∧ (∀ (s : ClientState) (t : Nat), s.numberRestarts + 1 > 5 →
        10 * 1000 ≤ t - s.lastStart → t - s.lastStart < 60 * 1000 →
        (serviceExited s true t).1.numberRestarts = 0
          ∧ Effect.spawn ∈ (serviceExited s true t).2
          ∧ Effect.promptWarn ∈ (serviceExited s true t).2
          ∧ Effect.promptFatal ∉ (serviceExited s true t).2)
    ∧ (∀ (s : ClientState) (t : Nat), s.numberRestarts + 1 > 5 →
        60 * 1000 ≤ t - s.lastStart →
        (serviceExited s true t).1.numberRestarts = 0
          ∧ Effect.spawn ∈ (serviceExited s true t).2
          ∧ Effect.promptWarn ∉ (serviceExited s true t).2
          ∧ Effect.promptFatal ∉ (serviceExited s true t).2)
    ∧ ((crashTimes {} [1000, 2000, 3000, 4000, 5000]).numberRestarts = 5
        ∧ (serviceExited (crashTimes {} [1000, 2000, 3000, 4000, 5000]) true 6000).2
            = [Effect.promptFatal]
        ∧ Effect.spawn
            ∉ (serviceExited (crashTimes {} [1000, 2000, 3000, 4000, 5000]) true 6000).2) := by
  have hnoMem : ∀ (m : CallbackMap) (e : ErrVal) (x : Effect),
      (∀ r v, x ≠ Effect.reject r v) → x ∉ (m.destroy e).2 := by
    intro m e x hx hmem
    obtain ⟨r, v, h⟩ := destroy_effects_are_rejects m e x hmem
    exact hx r v h
  refine ⟨?_, ?_, ?_, ?_, by decide, by decide, by decide⟩
  · intro s t h
    unfold serviceExited
    rw [if_neg (by simp)]
    rw [if_neg (by simpa using (by omega : ¬ s.numberRestarts + 1 > 5))]
    refine ⟨rfl, ?_, ?_, ?_⟩
    · simp [startServiceModel]
    · intro hmem
      rcases List.mem_append.mp hmem with hmem | hmem
      · exact hnoMem _ _ _ (fun r v h => Effect.noConfusion h) hmem
      · simp [startServiceModel] at hmem
    · intro hmem
      rcases List.mem_append.mp hmem with hmem | hmem
      · exact hnoMem _ _ _ (fun r v h => Effect.noConfusion h) hmem
      · simp [startServiceModel] at hmem
  · intro s t h5 h10
    unfold serviceExited
    rw [if_neg (by simp)]
    rw [if_pos (by simpa using h5)]
    rw [if_pos (by simpa using h10)]
    refine ⟨rfl, ?_, ?_⟩
    · intro hmem
      rcases List.mem_append.mp hmem with hmem | hmem
      · exact hnoMem _ _ _ (fun r v h => Effect.noConfusion h) hmem
      · simp at hmem
    · simp
  · intro s t h5 h10 h60
    unfold serviceExited
    rw [if_neg (by simp)]
    rw [if_pos (by simpa using h5)]
    rw [if_neg (by simpa using (by omega : ¬ t - s.lastStart < 10 * 1000))]
    rw [if_pos (by simpa using h60)]
    refine ⟨rfl, ?_, ?_, ?_⟩
    · simp [startServiceModel]
    · simp [startServiceModel]
    · intro hmem
      rcases List.mem_append.mp hmem with hmem | hmem
      · rcases List.mem_append.mp hmem with hmem | hmem
        · exact hnoMem _ _ _ (fun r v h => Effect.noConfusion h) hmem
        · simp at hmem
      · simp [startServiceModel] at hmem
  · intro s t h5 h60
    unfold serviceExited
    rw [if_neg (by simp)]
    rw [if_pos (by simpa using h5)]
    rw [if_neg (by simpa using (by omega : ¬ t - s.lastStart < 10 * 1000))]
    rw [if_neg (by simpa using (by omega : ¬ t - s.lastStart < 60 * 1000))]
    refine ⟨rfl, ?_, ?_, ?_⟩
    · simp [startServiceModel]
    · intro hmem
      rcases List.mem_append.mp hmem with hmem | hmem
      · exact hnoMem _ _ _ (fun r v h => Effect.noConfusion h) hmem
      · simp [startServiceModel] at hmem
    · intro hmem
      rcases List.mem_append.mp hmem with hmem | hmem
      · exact hnoMem _ _ _ (fun r v h => Effect.noConfusion h) hmem
      · simp [startServiceModel] at hmem

/-- Witness for C4: the very first crash of a fresh client restarts the
worker silently with the counter at 1. -/
theorem claim_C4_restart_policy_witness :
    (serviceExited {} true 0).1.numberRestarts = ({} : ClientState).numberRestarts + 1
      ∧ Effect.spawn ∈ (serviceExited {} true 0).2
      ∧ Effect.promptFatal ∉ (serviceExited {} true 0).2
      ∧ Effect.promptWarn ∉ (serviceExited {} true 0).2 :=
  claim_C4_restart_policy.1 {} 0 (by decide)

def infoSync : ExecuteInfo := { «isAsync» := false, expectsResult := true }

def infoAsync : ExecuteInfo := { «isAsync» := true, expectsResult := true }

/-- The client after one synchronous `execute` from a fresh state: request
0 has been written to the worker and its callback is registered (in
flight), holding the gate closed. -/
def exState1 : ClientState :=
  { requestQueue := { queue := [], sequenceNumber := 1 },
    callbacks := { callbacks := [(0, { reqSeq := 0, start := 0 })],
                   asyncCallbacks := [], pendingResponses := 1 } }

theorem exState1_eq :
    executeImpl {} "quickinfo" 0 infoSync 0
      = (exState1, [Effect.write { seq := 0, command := "quickinfo", arguments := 0 }]) := by
  unfold executeImpl RequestQueue.createRequest RequestQueue.push infoSync
  rw [sendNextRequests_step _ _ [] rfl rfl]
  rw [sendNextRequests_gate _ (Or.inl (by decide))]
  rfl

/-- The queued asynchronous request issued while request 0 is in flight. -/
def asyncItem1 : RequestItem :=
  { request := { seq := 1, command := "geterr", arguments := 0 },
    callbacks := some { reqSeq := 1, start := 0 },
    «isAsync» := true }

/-- `exState1` after `executeAsync` was called: the asynchronous request
sits in the queue because the drain is gated on request 0's response. -/
def exState2 : ClientState :=
  { requestQueue := { queue := [asyncItem1], sequenceNumber := 2 },
    callbacks := exState1.callbacks }

theorem exState2_eq :
    executeImpl exState1 "geterr" 0 infoAsync 0 = (exState2, []) := by
  unfold executeImpl RequestQueue.createRequest RequestQueue.push infoAsync exState1
  rw [sendNextRequests_gate _ (Or.inl (by decide))]
  rfl

/-- The queued synchronous request issued while request 0 is in flight. -/
def syncItem1 : RequestItem :=
  { request := { seq := 1, command := "references", arguments := 0 },
    callbacks := some { reqSeq := 1, start := 0 },
    «isAsync» := false }

/-- `exState1` after a second synchronous `execute`: request 1 waits in
the queue behind the outstanding request 0. -/
def queuedState : ClientState :=
  { requestQueue := { queue := [syncItem1], sequenceNumber := 2 },
    callbacks := exState1.callbacks }

theorem queuedState_eq :
    executeImpl exState1 "references" 0 infoSync 0 = (queuedState, []) := by
  unfold executeImpl RequestQueue.createRequest RequestQueue.push infoSync exState1
  rw [sendNextRequests_gate _ (Or.inl (by decide))]
  rfl

/-- C5 counterexample: a matched response settles the promise with the
FULL response message (`p.c(response)` in the source), not with the
response body: at this concrete input the single settlement effect carries
`Value.respMsg r`, which differs from `Value.respBody r.payload`. -/
theorem claim_C5_counterexample :
    (dispatchMessage exState1
        (Message.response { request_seq := 0, success := true, payload := 42 })).2.1
      = [Effect.resolve 0
          (Value.respMsg { request_seq := 0, success := true, payload := 42 })]
    ∧ Value.respMsg { request_seq := 0, success := true, payload := 42 }
        ≠ Value.respBody 42 := by
  constructor
  · dsimp only [dispatchMessage]
    rw [show (exState1.callbacks.fetch 0).1
        = some ({ reqSeq := 0, start := 0 } : CallbackItem) from rfl]
    dsimp only
    rw [sendNextRequests_gate _ (Or.inr rfl)]
    simp
  · decide

/-- C5 (amended): a response whose `request_seq` matches a registered
callback settles exactly that callback — resolving on `success = true` and
rejecting otherwise — with the full response message as the value, and
re-runs the drain; a response with an unmatched `request_seq` is silently
dropped: no settlement effect, no thrown error, and the correlation table
is left exactly as it was. -/
theorem claim_C5_response_dispatch :
    (∀ (s : ClientState) (r : Response) (cb : CallbackItem),
      (s.callbacks.fetch r.request_seq).1 = some cb →
        dispatchMessage s (Message.response r)
          = ((sendNextRequests
                { s with callbacks := (s.callbacks.fetch r.request_seq).2 }).1,
              (if r.success then Effect.resolve cb.reqSeq (Value.respMsg r)
               else Effect.reject cb.reqSeq (Value.respMsg r))
                :: (sendNextRequests
                    { s with callbacks := (s.callbacks.fetch r.request_seq).2 }).2,
              none))
    ∧ (∀ (s : ClientState) (r : Response),
        (s.callbacks.fetch r.request_seq).1 = none →
          dispatchMessage s (Message.response r)
            = ((sendNextRequests
                  { s with callbacks := (s.callbacks.fetch r.request_seq).2 }).1,
                (sendNextRequests
                  { s with callbacks := (s.callbacks.fetch r.request_seq).2 }).2,
                none))
    ∧ (∀ (s : ClientState) (r : Response),
        s.callbacks.callbacks.get r.request_seq = none →
        s.callbacks.asyncCallbacks.get r.request_seq = none →
          (s.callbacks.fetch r.request_seq).1 = none
            ∧ (s.callbacks.fetch r.request_seq).2 = s.callbacks) := by
  refine ⟨?_, ?_, ?_⟩
  · intro s r cb hsome
    dsimp only [dispatchMessage]
    rw [hsome]
    simp
  · intro s r hnone
    dsimp only [dispatchMessage]
    rw [hnone]
    simp
  · intro s r hS hA
    constructor
    · show ((s.callbacks.callbacks.get r.request_seq).or
          (s.callbacks.asyncCallbacks.get r.request_seq)) = none
      rw [hS, hA]
      rfl
    · show s.callbacks.deleteSeq r.request_seq = s.callbacks
      have hkS : r.request_seq ∉ s.callbacks.callbacks.keys :=
        (JMap.get_eq_none_iff _ _).mp hS
      have hkA : r.request_seq ∉ s.callbacks.asyncCallbacks.keys :=
        (JMap.get_eq_none_iff _ _).mp hA
      rw [CallbackMap.deleteSeq_unfound _ _
        (by rw [JMap.del_of_not_mem _ _ hkS])]
      rw [JMap.del_of_not_mem _ _ hkA]

/-- Witness for C5 at `exState1` with a successful response for seq 0. -/
theorem claim_C5_response_dispatch_witness :
    dispatchMessage exState1
        (Message.response { request_seq := 0, success := true, payload := 42 })
      = ((sendNextRequests
            { exState1 with callbacks := (exState1.callbacks.fetch 0).2 }).1,
          Effect.resolve 0
              (Value.respMsg { request_seq := 0, success := true, payload := 42 })
            :: (sendNextRequests
                { exState1 with callbacks := (exState1.callbacks.fetch 0).2 }).2,
          none) := by
  have h := claim_C5_response_dispatch.1 exState1
    { request_seq := 0, success := true, payload := 42 }
    { reqSeq := 0, start := 0 } (by decide)
  simpa using h

/-- C2 counterexample: at `exState1` (request 0 already sent, nothing in
the queue, API below 2.2.2 so no side channel), the cancellation attempt
returns false — but it still rejects request 0's callback with the
cancellation error and removes it from the table, so the promise does not
remain pending. -/
theorem claim_C2_counterexample :
    (tryCancelRequest exState1 0).2.2 = false
      ∧ (tryCancelRequest exState1 0).2.1
          = [Effect.reject 0 (Value.err (ErrVal.cancelled 0))]
      ∧ (tryCancelRequest exState1 0).1.callbacks.callbacks = []
      ∧ (tryCancelRequest exState1 0).1.callbacks.pendingResponses = 0 := by
  decide

/-- C2 (amended): when the request is no longer in the queue and the
out-of-band side channel is unavailable (API below 2.2.2 or no pipe name),
`tryCancelRequest` returns false — but its `finally` clause still fetches
any registered callback for that seq and rejects it with the cancellation
error, so the promise is locally rejected rather than left pending. -/
theorem claim_C2_cancel_after_sent (s : ClientState) (k : Nat) (cb : CallbackItem)
    (hq : RequestQueue.removeFirstSeq k s.requestQueue.queue = none)
    (hside : (s.apiVersionGte222 && s.cancellationPipeName.isSome) = false)
    (hreg : (s.callbacks.fetch k).1 = some cb) :
    tryCancelRequest s k
      = ({ s with callbacks := (s.callbacks.fetch k).2 },
          [Effect.reject cb.reqSeq (Value.err (ErrVal.cancelled k))], false) := by
  have hc : s.requestQueue.tryCancelPendingRequest k = (false, s.requestQueue) := by
    unfold RequestQueue.tryCancelPendingRequest
    rw [hq]
  simp only [tryCancelRequest, hc, hside, hreg]
  simp
  rw [hreg]

/-- Witness for C2 at `exState1`. -/
theorem claim_C2_cancel_after_sent_witness :
    tryCancelRequest exState1 0
      = ({ exState1 with callbacks := (exState1.callbacks.fetch 0).2 },
          [Effect.reject 0 (Value.err (ErrVal.cancelled 0))], false) :=
  claim_C2_cancel_after_sent exState1 0 { reqSeq := 0, start := 0 }
    (by decide) (by decide) (by decide)

/-- C1 counterexample: with the synchronous request 0 outstanding
(`pendingResponses = 1`) and an asynchronous request queued, the drain
transmits nothing at all — the asynchronous request is NOT sent while the
synchronous one is in flight, and issuing it produced no write effect. -/
theorem claim_C1_counterexample :
    exState2.callbacks.pendingResponses = 1
      ∧ exState2.requestQueue.queue.map RequestItem.isAsync = [true]
      ∧ executeImpl exState1 "geterr" 0 infoAsync 0 = (exState2, [])
      ∧ sendNextRequests exState2 = (exState2, []) := by
  refine ⟨by decide, by decide, exState2_eq, ?_⟩
  exact sendNextRequests_gate _ (Or.inl (by decide))

/-- C1 (amended): the drain loop transmits queued requests only while the
count of outstanding synchronous responses is zero and the queue is
non-empty, so in every reachable state at most one synchronous request is
in flight; asynchronous and no-callback requests do not increment the
gate counter (so sending one keeps the drain going) — but nothing, not
even an asynchronous request, is transmitted while a synchronous response
is outstanding. -/
theorem claim_C1_drain_gate :
    (∀ s : ClientState, Reachable s → s.callbacks.syncCount ≤ 1)
    ∧ (∀ s : ClientState,
        s.callbacks.pendingResponses ≠ 0 ∨ s.requestQueue.queue = [] →
          sendNextRequests s = (s, []))
    ∧ (∀ (m : CallbackMap) (k : Nat) (cb : CallbackItem),
        (m.add k cb true).pendingResponses = m.pendingResponses)
    ∧ (∀ (s : ClientState) (item : RequestItem), item.callbacks = none →
        (sendRequest s item).1 = s
          ∧ (sendRequest s item).2 = [Effect.write item.request]) := by
  refine ⟨?_, fun s h => sendNextRequests_gate s h, ?_, ?_⟩
  · intro s hs
    exact (reachable_inv s hs).gate
  · intro m k cb
    simp [CallbackMap.add]
  · intro s item hnone
    unfold sendRequest
    rw [hnone]
    exact ⟨rfl, rfl⟩

/-- Witness for C1: `exState1`, reached by one synchronous `execute` from
a fresh client, has exactly one synchronous request in flight. -/
theorem claim_C1_drain_gate_witness : exState1.callbacks.syncCount ≤ 1 := by
  have hstep : ClientStep {} exState1 := by
    have h := ClientStep.exec {} "quickinfo" 0 infoSync 0
    rw [exState1_eq] at h
    exact h
  exact claim_C1_drain_gate.1 exState1
    ⟨{}, ⟨rfl, rfl⟩, Relation.ReflTransGen.single hstep⟩

/-- C8: the code at the failing input.  With request 0 in flight and the
synchronous request 1 still queued (the state reached by two `execute`
calls), cancelling request 1 removes exactly that entry from the queue and
reports true, and the request is never written to the worker — but the
effect list is empty: no cancellation rejection is emitted, because the
`finally` fetch looks in the correlation table and a queued item's
callback is only registered there at send time.  Afterwards request 1's
callback is referenced from neither map nor the queue, so no later step
can settle its promise: it never rejects, contradicting the claim. -/
theorem claim_C8_queue_cancel :
    executeImpl exState1 "references" 0 infoSync 0 = (queuedState, [])
      ∧ (tryCancelRequest queuedState 1).2.2 = true
      ∧ (tryCancelRequest queuedState 1).1.requestQueue.queue = []
      ∧ (tryCancelRequest queuedState 1).2.1 = []
      ∧ (tryCancelRequest queuedState 1).1.callbacks.callbacks.get 1 = none
      ∧ (tryCancelRequest queuedState 1).1.callbacks.asyncCallbacks.get 1 = none := by
  refine ⟨queuedState_eq, by decide, by decide, by decide, by decide, by decide⟩

/-- Registering a fresh seq and fetching it returns exactly that callback
and restores the table. -/
theorem CallbackMap.fetch_add_fresh (m : CallbackMap) (k : Nat)
    (cb : CallbackItem) (b : Bool)
    (hS : m.callbacks.get k = none) (hA : m.asyncCallbacks.get k = none) :
    ((m.add k cb b).fetch k).1 = some cb
      ∧ ((m.add k cb b).fetch k).2.callbacks = m.callbacks
      ∧ ((m.add k cb b).fetch k).2.asyncCallbacks = m.asyncCallbacks
      ∧ ((m.add k cb b).fetch k).2.pendingResponses = m.pendingResponses := by
  have hkS : k ∉ m.callbacks.keys := (JMap.get_eq_none_iff _ _).mp hS
  have hkA : k ∉ m.asyncCallbacks.keys := (JMap.get_eq_none_iff _ _).mp hA
  cases b with
  | true =>
      have hdelS : ((m.callbacks.del k)) = (m.callbacks, false) :=
        JMap.del_of_not_mem _ _ hkS
      have hdelA : ((m.asyncCallbacks.set k cb).del k) = (m.asyncCallbacks, true) := by
        rw [JMap.set_of_not_mem _ _ _ hkA]
        exact JMap.del_append_single _ _ _ hkA
      refine ⟨?_, ?_, ?_, ?_⟩ <;>
        simp [CallbackMap.fetch, CallbackMap.add, CallbackMap.deleteSeq,
          hS, hA, hdelS, hdelA, JMap.get_set_same]
  | false =>
      have hdelS : ((m.callbacks.set k cb).del k) = (m.callbacks, true) := by
        rw [JMap.set_of_not_mem _ _ _ hkS]
        exact JMap.del_append_single _ _ _ hkS
      refine ⟨?_, ?_, ?_, ?_⟩ <;>
        simp [CallbackMap.fetch, CallbackMap.add, CallbackMap.deleteSeq,
          hA, hdelS, JMap.get_set_same]

/-- C10: when the `service()` promise of a dequeued request with a
registered callback rejects, the failure continuation removes the
callback from the correlation table (restoring it to its pre-registration
contents, counter included) and invokes the failure path with the error,
so the request's promise does not stay pending. -/
theorem claim_C10_send_failure (s : ClientState) (item : RequestItem)
    (cb : CallbackItem) (e : ErrVal)
    (hcb : item.callbacks = some cb)
    (hS : s.callbacks.callbacks.get item.request.seq = none)
    (hA : s.callbacks.asyncCallbacks.get item.request.seq = none) :
    (handleSendFailure (sendRequest s item).1 item.request.seq e).2
        = [Effect.reject cb.reqSeq (Value.err e)]
      ∧ (handleSendFailure (sendRequest s item).1 item.request.seq e).1.callbacks.callbacks
          = s.callbacks.callbacks
      ∧ (handleSendFailure (sendRequest s item).1 item.request.seq e).1.callbacks.asyncCallbacks
          = s.callbacks.asyncCallbacks
      ∧ (handleSendFailure (sendRequest s item).1 item.request.seq e).1.callbacks.pendingResponses
          = s.callbacks.pendingResponses := by
  have h := CallbackMap.fetch_add_fresh s.callbacks item.request.seq cb item.isAsync hS hA
  have hsr : (sendRequest s item).1
      = { s with callbacks := s.callbacks.add item.request.seq cb item.isAsync } := by
    unfold sendRequest
    rw [hcb]
  rw [hsr]
  dsimp only [handleSendFailure]
  rw [h.1]
  exact ⟨rfl, h.2.1, h.2.2.1, h.2.2.2⟩

/-- Witness for C10: a fresh client fails to spawn the worker while
sending the synchronous request 1; its promise is rejected with the error. -/
theorem claim_C10_send_failure_witness :
    (handleSendFailure (sendRequest {} syncItem1).1 syncItem1.request.seq
        (ErrVal.external 7)).2
      = [Effect.reject 1 (Value.err (ErrVal.external 7))]
      ∧ (handleSendFailure (sendRequest {} syncItem1).1 syncItem1.request.seq
          (ErrVal.external 7)).1.callbacks.pendingResponses = 0 := by
  have h := claim_C10_send_failure {} syncItem1 { reqSeq := 1, start := 0 }
    (ErrVal.external 7) rfl rfl rfl
  exact ⟨h.1, h.2.2.2⟩

end TSClient
